import Mathlib

set_option autoImplicit false

/-!
Verification development for the data-loading layer exercised by the
tutorial notebook `examples/01_Data_Loading.ipynb`.  The library itself
(`mogptk.LoadCSV`, `mogptk.LoadDataFrame`, the `Data` and `DataSet`
classes) ships outside the provided sources, so the definitions below are
modelled from the specification's description of that layer together with
the invocations and recorded outputs of the notebook.
-/

/-- Modelled from the spec: the cells delivered by the external tabular
reader are either numeric values or datetime values (the loading step infers
"numeric vs. datetime typing per column").  The reader's parsing internals
are out of scope, so a numeric cell is identified by its rational value and a
datetime cell by its integer timestamp. -/
inductive Cell where
  | numC (q : ℚ)
  | dtC (t : ℤ)
deriving DecidableEq, Repr

/-- Whether a cell is a plain numeric value, as opposed to a raw
datetime-typed value. -/
def Cell.isNum : Cell → Bool
  | .numC _ => true
  | .dtC _ => false

/-- Numeric conversion of a cell: numeric cells are taken as-is, datetime
cells are converted to the number given by their timestamp. -/
def Cell.toNumber : Cell → ℚ
  | .numC q => q
  | .dtC t => (t : ℚ)

/-- Modelled from the spec: the type inferred for a column, numeric or
datetime. -/
inductive DType where
  | numeric
  | datetime
deriving DecidableEq, Repr

/-- Modelled from the spec: a column's type is inferred as numeric when all
of its cells are numeric values, and as datetime otherwise (a column parsed
or parseable as datetime arrives as datetime cells from the external
reader). -/
def inferDType (cells : List Cell) : DType :=
  if cells.all Cell.isNum then .numeric else .datetime

/-- Modelled from the spec: one named column of a loaded table. -/
structure Column where
  name : String
  cells : List Cell
deriving DecidableEq, Repr

/-- Modelled from the spec: a table handed over by the external tabular
reader, an ordered list of named columns. -/
abbrev DataFrame := List Column

/-- Look up a column by name; the first column carrying the name is
returned. -/
def DataFrame.col? (df : DataFrame) (s : String) : Option Column :=
  df.find? (fun c => c.name == s)

/-- Modelled from the spec: a delimited text file as seen by a loading call
("whitespace- or semicolon-delimited text files with optional header row").
Splitting each line at the separator and parsing the resulting cells belong
to the external tabular reader, which is out of scope, so the file is given
by its optional header row of column names together with its data rows of
cells. -/
structure TextFile where
  header : Option (List String)
  rows : List (List Cell)
deriving DecidableEq, Repr

/-- Build the columns of a table from column names and data rows: the j-th
column holds the j-th cell of every data row. -/
def buildDF (names : List String) (rows : List (List Cell)) : DataFrame :=
  names.enum.map (fun p => ⟨p.2, rows.map (fun r => r.getD p.1 (Cell.numC 0))⟩)

/-- Modelled from the spec: the external reader's table construction.  Column
names come from the header row when the file has one, and otherwise from the
names supplied as a parameter to the loading call. -/
def read_table (f : TextFile) (names : Option (List String)) : Option DataFrame :=
  match f.header with
  | some hs => some (buildDF hs f.rows)
  | none =>
    match names with
    | some ns => some (buildDF ns f.rows)
    | none => none

/-- Modelled from the spec: a channel, "one observed output series sharing a
common role grouping of input coordinates".  It holds the raw X and Y
coordinate values, the inferred type of every input column, the numeric
representation used for training (datetime converted to numbers, numeric
taken as-is), and the per-row flags recording which coordinates are for
training; the remaining rows are for testing. -/
structure Data where
  name : String
  xDtypes : List DType
  X : List (List Cell)
  Y : List Cell
  X_t : List (List ℚ)
  Y_t : List ℚ
  mask : List Bool
deriving DecidableEq, Repr

/-- Modelled from the spec: a data set is an ordered collection of
channels. -/
structure DataSet where
  channels : List Data
deriving DecidableEq, Repr

/-- Modelled from the spec: build a single channel from the selected input
columns and one output column.  Each data row contributes one X coordinate
per input column and one Y value; the training representation converts every
cell to a number; a freshly loaded channel marks every row as training
data. -/
def makeChannel (xcols : List Column) (ycol : Column) : Data :=
  let n := ycol.cells.length
  let X := (List.range n).map (fun i => xcols.map (fun c => c.cells.getD i (Cell.numC 0)))
  { name := ycol.name
    xDtypes := xcols.map (fun c => inferDType c.cells)
    X := X
    Y := ycol.cells
    X_t := X.map (List.map Cell.toNumber)
    Y_t := ycol.cells.map Cell.toNumber
    mask := List.replicate n true }

/-- Sequence a list of optional values, failing when any entry is
missing. -/
def seqOpt {α : Type} : List (Option α) → Option (List α)
  | [] => some []
  | o :: os => o.bind (fun a => (seqOpt os).map (fun l => a :: l))

/-- Modelled from the spec: load a table into a data set.  The input columns
default to the first column of the table and the output columns to the
second; each output column yields one channel and all channels share the
selected input columns; a missing column name makes the load fail. -/
def LoadDataFrame (df : DataFrame) (x_col y_col : Option (List String)) :
    Option DataSet :=
  let xnames? : Option (List String) :=
    match x_col with
    | some xs => some xs
    | none => (df.get? 0).map (fun c => [c.name])
  let ynames? : Option (List String) :=
    match y_col with
    | some ys => some ys
    | none => (df.get? 1).map (fun c => [c.name])
  xnames?.bind (fun xnames =>
    ynames?.bind (fun ynames =>
      (seqOpt (xnames.map df.col?)).bind (fun xcols =>
        (seqOpt (ynames.map df.col?)).map (fun ycols =>
          ⟨ycols.map (makeChannel xcols)⟩))))

/-- Modelled from the spec: load a delimited text file, the column names
being supplied as a parameter when the file has no header row; the resulting
table is loaded with the default column roles. -/
def LoadCSV (f : TextFile) (names : Option (List String)) : Option DataSet :=
  (read_table f names).bind (fun df => LoadDataFrame df none none)

/-- Select the entries of a list whose flag in the parallel mask is set. -/
def maskSel {α : Type} : List Bool → List α → List α
  | [], _ => []
  | _, [] => []
  | b :: m, x :: xs => if b then x :: maskSel m xs else maskSel m xs

/-- The "all data" accessor of a channel: the raw X and Y values; with the
transformed flag set, the Y values are the transformed numeric values.  As
recorded in the notebook, the X side keeps its raw (possibly datetime)
typing also when the transformed flag is set. -/
def Data.get_data (d : Data) (transformed : Bool) :
    List (List Cell) × List Cell :=
  (d.X, if transformed then d.Y_t.map Cell.numC else d.Y)

/-- The "training subset" accessor of a channel: the rows whose training
flag is set. -/
def Data.get_train_data (d : Data) (transformed : Bool) :
    List (List Cell) × List Cell :=
  (maskSel d.mask d.X,
   maskSel d.mask (if transformed then d.Y_t.map Cell.numC else d.Y))

/-- The "test subset" accessor of a channel: the rows whose training flag is
not set. -/
def Data.get_test_data (d : Data) (transformed : Bool) :
    List (List Cell) × List Cell :=
  (maskSel (d.mask.map not) d.X,
   maskSel (d.mask.map not) (if transformed then d.Y_t.map Cell.numC else d.Y))

/-- Append a single channel to a data set: it becomes the last channel. -/
def DataSet.append (s : DataSet) (d : Data) : DataSet :=
  ⟨s.channels ++ [d]⟩

/-- Append every channel of another data set, in order. -/
def DataSet.appendDS (s t : DataSet) : DataSet :=
  ⟨s.channels ++ t.channels⟩

/-- Number of output dimensions: the number of channels. -/
def DataSet.get_output_dims (s : DataSet) : ℕ :=
  s.channels.length

/-- Input dimensions per channel: the number of input columns of each
channel, in channel order. -/
def DataSet.get_input_dims (s : DataSet) : List ℕ :=
  s.channels.map (fun d => d.xDtypes.length)

/-- The channel names, in channel order. -/
def DataSet.get_names (s : DataSet) : List String :=
  s.channels.map Data.name

/-- Indexing a data set by channel position. -/
def DataSet.getPos (s : DataSet) (i : ℕ) : Option Data :=
  s.channels.get? i

/-- Indexing a data set by channel name: the first channel carrying the
name. -/
def DataSet.getName (s : DataSet) (na : String) : Option Data :=
  s.channels.find? (fun d => d.name == na)

/-- The "all data" accessor of a data set: the per-channel X lists and Y
lists, in channel order. -/
def DataSet.get_data (s : DataSet) (transformed : Bool) :
    List (List (List Cell)) × List (List Cell) :=
  (s.channels.map (fun d => (d.get_data transformed).1),
   s.channels.map (fun d => (d.get_data transformed).2))

/-- The "training subset" accessor of a data set, per channel. -/
def DataSet.get_train_data (s : DataSet) (transformed : Bool) :
    List (List (List Cell)) × List (List Cell) :=
  (s.channels.map (fun d => (d.get_train_data transformed).1),
   s.channels.map (fun d => (d.get_train_data transformed).2))

/-- The "test subset" accessor of a data set, per channel. -/
def DataSet.get_test_data (s : DataSet) (transformed : Bool) :
    List (List (List Cell)) × List (List Cell) :=
  (s.channels.map (fun d => (d.get_test_data transformed).1),
   s.channels.map (fun d => (d.get_test_data transformed).2))

/-- Well-formedness of a channel: the mask, the Y values and the training
representation run parallel to the X rows, and every X row has one entry per
input column.  Channels produced by the loading calls satisfy it. -/
def Data.WF (d : Data) : Prop :=
  d.mask.length = d.X.length ∧ d.Y.length = d.X.length ∧
    d.Y_t.length = d.X.length ∧ d.X_t.length = d.X.length ∧
    ∀ r ∈ d.X, r.length = d.xDtypes.length

instance (d : Data) : Decidable d.WF := by
  unfold Data.WF
  exact inferInstance

/-- Miniature of the airline passenger file of the notebook: no header row,
rows of two numeric cells. -/
def airlineFile : TextFile :=
  { header := none
    rows := [[Cell.numC 0, Cell.numC 112], [Cell.numC 1, Cell.numC 118],
      [Cell.numC 2, Cell.numC 132]] }

/-- Miniature of the air-quality table of the notebook: a datetime Date
column, a datetime Time column, and numeric measurement columns. -/
def airQualityDF : DataFrame :=
  [⟨"Date", [Cell.dtC 0, Cell.dtC 1]⟩,
   ⟨"Time", [Cell.dtC 18, Cell.dtC 19]⟩,
   ⟨"CO(GT)", [Cell.numC 26, Cell.numC 2]⟩,
   ⟨"PT08.S1(CO)", [Cell.numC 1360, Cell.numC 1292]⟩,
   ⟨"NMHC(GT)", [Cell.numC 150, Cell.numC 112]⟩]

/-- A data set holding two distinct channels that share the name "a",
assembled through append. -/
def dupSet : DataSet :=
  ((DataSet.mk []).append (makeChannel [] ⟨"a", [Cell.numC 1]⟩)).append
    (makeChannel [] ⟨"a", [Cell.numC 2]⟩)

/-- A small channel named "a". -/
def aChan : Data :=
  makeChannel [] ⟨"a", [Cell.numC 1]⟩

/-- A small channel named "b" with one input column. -/
def bChan : Data :=
  makeChannel [⟨"t", [Cell.numC 0, Cell.numC 1]⟩] ⟨"b", [Cell.numC 5, Cell.numC 7]⟩

/-- A data set holding the two channels "a" and "b", whose names are
distinct. -/
def abDataSet : DataSet :=
  ⟨[aChan, bChan]⟩

/-- The data set loaded from the miniature air-quality table with the Date
and Time columns as inputs and the NMHC(GT) column as output, mirroring the
notebook's append argument. -/
def aqNTset : DataSet :=
  (LoadDataFrame airQualityDF (some ["Date", "Time"]) (some ["NMHC(GT)"])).getD ⟨[]⟩

/-- The data set loaded from the miniature air-quality table with the Date
column as input and the CO(GT) column as output, mirroring the notebook's
first air-quality load. -/
def aqDCset : DataSet :=
  (LoadDataFrame airQualityDF (some ["Date"]) (some ["CO(GT)"])).getD ⟨[]⟩

theorem seqOpt_eq_some {α : Type} {l : List (Option α)} {l' : List α} :
    seqOpt l = some l' ↔ l = l'.map some := by
  induction l generalizing l' with
  | nil => cases l' <;> simp [seqOpt]
  | cons o os ih =>
    cases l' with
    | nil =>
      simp only [seqOpt, Option.bind_eq_some, Option.map_eq_some', List.map_nil]
      constructor
      · rintro ⟨a, ha, l'', hl'', h⟩
        cases h
      · intro h
        cases h
    | cons b l'' =>
      simp only [seqOpt, Option.bind_eq_some, Option.map_eq_some', List.map_cons,
        List.cons.injEq]
      constructor
      · rintro ⟨a, ha, l₃, hl₃, rfl, rfl⟩
        exact ⟨ha, ih.mp hl₃⟩
      · rintro ⟨rfl, h⟩
        exact ⟨b, rfl, l'', ih.mpr h, rfl, rfl⟩

theorem seqOpt_length {α : Type} {l : List (Option α)} {l' : List α}
    (h : seqOpt l = some l') : l'.length = l.length := by
  rw [seqOpt_eq_some] at h
  simp [h]

theorem seqOpt_isSome {α : Type} {l : List (Option α)}
    (h : ∀ o ∈ l, o.isSome) : (seqOpt l).isSome := by
  induction l with
  | nil => simp [seqOpt]
  | cons o os ih =>
    obtain ⟨a, ha⟩ := Option.isSome_iff_exists.mp (h o (by simp))
    obtain ⟨l', hl'⟩ := Option.isSome_iff_exists.mp (ih fun x hx => h x (by simp [hx]))
    simp [seqOpt, ha, hl']

theorem maskSel_replicate_true {α : Type} (xs : List α) :
    maskSel (List.replicate xs.length true) xs = xs := by
  induction xs with
  | nil => rfl
  | cons x xs ih => simp [maskSel, List.replicate, ih]

theorem maskSel_replicate_false {α : Type} (n : ℕ) (xs : List α) :
    maskSel (List.replicate n false) xs = [] := by
  induction n generalizing xs with
  | zero => cases xs <;> rfl
  | succ n ih => cases xs <;> simp [maskSel, List.replicate, ih]

theorem maskSel_append_not_perm {α : Type} (m : List Bool) (xs : List α)
    (h : m.length = xs.length) :
    List.Perm (maskSel m xs ++ maskSel (m.map not) xs) xs := by
  induction m generalizing xs with
  | nil =>
    cases xs with
    | nil => simp [maskSel]
    | cons x xs => simp at h
  | cons b m ih =>
    cases xs with
    | nil => simp at h
    | cons x xs =>
      have hlen : m.length = xs.length := by simpa using h
      cases b with
      | true =>
        simpa [maskSel] using (ih xs hlen).cons x
      | false =>
        simp only [maskSel, List.map_cons, not, if_neg, Bool.false_eq_true,
          not_false_eq_true, if_pos]
        exact List.perm_middle.trans ((ih xs hlen).cons x)

theorem maskSel_length_congr {α β : Type} (m : List Bool) (xs : List α)
    (ys : List β) (h : xs.length = ys.length) :
    (maskSel m xs).length = (maskSel m ys).length := by
  induction m generalizing xs ys with
  | nil => cases xs <;> cases ys <;> simp [maskSel]
  | cons b m ih =>
    cases xs with
    | nil => cases ys <;> simp_all [maskSel]
    | cons x xs =>
      cases ys with
      | nil => simp at h
      | cons y ys =>
        have hlen : xs.length = ys.length := by simpa using h
        cases b <;> simp [maskSel, ih xs ys hlen]

theorem mem_of_mem_maskSel {α : Type} {m : List Bool} {xs : List α} {a : α}
    (h : a ∈ maskSel m xs) : a ∈ xs := by
  induction m generalizing xs with
  | nil => cases xs <;> simp [maskSel] at h
  | cons b m ih =>
    cases xs with
    | nil => simp [maskSel] at h
    | cons x xs =>
      cases b with
      | true =>
        rcases List.mem_cons.mp (by simpa [maskSel] using h) with h | h
        · simp [h]
        · exact List.mem_cons_of_mem x (ih h)
      | false => exact List.mem_cons_of_mem x (ih (by simpa [maskSel] using h))

theorem enum_get? {α : Type} (l : List α) (i : ℕ) :
    l.enum.get? i = (l.get? i).map (fun a => (i, a)) := by
  simp [List.get?_eq_getElem?, List.getElem?_enum]

theorem buildDF_length (ns : List String) (rows : List (List Cell)) :
    (buildDF ns rows).length = ns.length := by
  simp [buildDF]

theorem cells_length_of_mem_buildDF {ns : List String} {rows : List (List Cell)}
    {c : Column} (h : c ∈ buildDF ns rows) : c.cells.length = rows.length := by
  simp only [buildDF, List.mem_map] at h
  obtain ⟨p, hp, rfl⟩ := h
  simp

theorem buildDF_get? (ns : List String) (rows : List (List Cell)) (j : ℕ) :
    (buildDF ns rows).get? j = (ns.get? j).map
      (fun nm => ⟨nm, rows.map (fun r => r.getD j (Cell.numC 0))⟩) := by
  rw [buildDF, List.get?_map, enum_get?]
  cases ns.get? j <;> rfl

theorem col?_isSome_of_mem {df : DataFrame} {c : Column} (h : c ∈ df) :
    (df.col? c.name).isSome := by
  rw [DataFrame.col?, List.find?_isSome]
  exact ⟨c, h, by simp⟩

theorem mem_of_col?_eq_some {df : DataFrame} {s : String} {c : Column}
    (h : df.col? s = some c) : c ∈ df :=
  List.mem_of_find?_eq_some h

theorem name_of_col?_eq_some {df : DataFrame} {s : String} {c : Column}
    (h : df.col? s = some c) : c.name = s := by
  have := List.find?_some h
  simpa using this

theorem makeChannel_WF (xcols : List Column) (ycol : Column) :
    (makeChannel xcols ycol).WF := by
  refine ⟨by simp [makeChannel], by simp [makeChannel], by simp [makeChannel],
    by simp [makeChannel], ?_⟩
  intro r hr
  simp only [makeChannel, List.mem_map] at hr
  obtain ⟨i, hi, rfl⟩ := hr
  simp [makeChannel]

theorem LoadDataFrame_channels {df : DataFrame} {xc yc : Option (List String)}
    {s : DataSet} (h : LoadDataFrame df xc yc = some s) :
    ∃ (xcols : List Column) (ycols : List Column),
      s.channels = ycols.map (makeChannel xcols) := by
  simp only [LoadDataFrame, Option.bind_eq_some, Option.map_eq_some'] at h
  obtain ⟨xnames, hx, ynames, hy, xcols, hxc, ycols, hyc, rfl⟩ := h
  exact ⟨xcols, ycols, rfl⟩

theorem LoadDataFrame_some_inv {df : DataFrame} {xs ys : List String}
    {s : DataSet} (h : LoadDataFrame df (some xs) (some ys) = some s) :
    ∃ (xcols : List Column) (ycols : List Column),
      seqOpt (xs.map df.col?) = some xcols ∧
      seqOpt (ys.map df.col?) = some ycols ∧
      s.channels = ycols.map (makeChannel xcols) := by
  simp only [LoadDataFrame, Option.bind_eq_some, Option.map_eq_some'] at h
  obtain ⟨xnames, hx, ynames, hy, xcols, hxc, ycols, hyc, rfl⟩ := h
  obtain rfl : xs = xnames := by simpa using hx
  obtain rfl : ys = ynames := by simpa using hy
  exact ⟨xcols, ycols, hxc, hyc, rfl⟩

theorem makeChannel_name (xcols : List Column) (ycol : Column) :
    (makeChannel xcols ycol).name = ycol.name := rfl

theorem makeChannel_X_length (xcols : List Column) (ycol : Column) :
    (makeChannel xcols ycol).X.length = ycol.cells.length := by
  simp [makeChannel]

theorem find?_name_eq_of_nodup {l : List Data} {i : ℕ} {d : Data}
    (hnd : (l.map Data.name).Nodup) (h : l.get? i = some d) :
    l.find? (fun x => x.name == d.name) = some d := by
  induction l generalizing i with
  | nil => simp at h
  | cons a l ih =>
    cases i with
    | zero =>
      obtain rfl : a = d := by simpa using h
      simp [List.find?]
    | succ i =>
      have h' : l.get? i = some d := by simpa using h
      have hmem : d.name ∈ l.map Data.name :=
        List.mem_map.mpr ⟨d, List.get?_mem h', rfl⟩
      have hne : (a.name == d.name) = false := by
        have : a.name ∉ l.map Data.name := (List.nodup_cons.mp hnd).1
        simp only [beq_eq_false_iff_ne, ne_eq]
        intro hEq
        exact this (hEq ▸ hmem)
      rw [List.find?]
      rw [hne]
      exact ih (List.nodup_cons.mp hnd).2 h'

theorem names_of_seqOpt_cols {df : DataFrame} {ys : List String}
    {ycols : List Column} (h : seqOpt (ys.map df.col?) = some ycols) :
    ycols.map Column.name = ys := by
  induction ys generalizing ycols with
  | nil =>
    rw [seqOpt_eq_some] at h
    simp only [List.map_nil] at h
    obtain rfl : ycols = [] := by
      cases ycols with
      | nil => rfl
      | cons c cs => simp at h
    rfl
  | cons yn ys ih =>
    rw [seqOpt_eq_some] at h
    cases ycols with
    | nil => simp at h
    | cons c cs =>
      simp only [List.map_cons, List.cons.injEq] at h
      obtain ⟨h1, h2⟩ := h
      simp [name_of_col?_eq_some h1, ih (seqOpt_eq_some.mpr h2)]

theorem get_names_of_load {df : DataFrame} {xs ys : List String} {s : DataSet}
    (h : LoadDataFrame df (some xs) (some ys) = some s) :
    s.get_names = ys := by
  obtain ⟨xcols, ycols, hxc, hyc, hch⟩ := LoadDataFrame_some_inv h
  rw [DataSet.get_names, hch, List.map_map]
  have : (Data.name ∘ makeChannel xcols) = Column.name := by
    funext c
    rfl
  rw [this]
  exact names_of_seqOpt_cols hyc

theorem load_dims {df : DataFrame} {xs ys : List String} {s : DataSet}
    (h : LoadDataFrame df (some xs) (some ys) = some s) :
    s.get_output_dims = ys.length ∧
      s.get_input_dims = List.replicate ys.length xs.length := by
  obtain ⟨xcols, ycols, hxc, hyc, hch⟩ := LoadDataFrame_some_inv h
  have hxl : xcols.length = xs.length := by
    have := seqOpt_length hxc
    simpa using this
  have hyl : ycols.length = ys.length := by
    have := seqOpt_length hyc
    simpa using this
  constructor
  · simp [DataSet.get_output_dims, hch, hyl]
  · rw [DataSet.get_input_dims, hch, List.map_map]
    refine List.eq_replicate.mpr ⟨by simp [hyl], ?_⟩
    intro b hb
    simp only [List.mem_map, Function.comp] at hb
    obtain ⟨yc, hyc', rfl⟩ := hb
    simp [makeChannel, hxl]

theorem train_eq_all_of_mask_true (d : Data) (t : Bool)
    (hm : d.mask = List.replicate d.X.length true)
    (hY : d.Y.length = d.X.length) (hYt : d.Y_t.length = d.X.length) :
    d.get_train_data t = d.get_data t ∧ d.get_test_data t = ([], []) := by
  have hZ : (if t then d.Y_t.map Cell.numC else d.Y).length = d.X.length := by
    cases t <;> simp [hY, hYt]
  have h1 : maskSel (List.replicate d.X.length true) d.X = d.X :=
    maskSel_replicate_true d.X
  have h2 : maskSel (List.replicate d.X.length true)
      (if t then d.Y_t.map Cell.numC else d.Y) =
      (if t then d.Y_t.map Cell.numC else d.Y) := by
    rw [← hZ]
    exact maskSel_replicate_true (if t then d.Y_t.map Cell.numC else d.Y)
  have hnot : (List.replicate d.X.length true).map not =
      List.replicate d.X.length false := by simp
  constructor
  · rw [Data.get_train_data, Data.get_data, hm, h1, h2]
  · rw [Data.get_test_data, hm, hnot, maskSel_replicate_false,
      maskSel_replicate_false]

theorem makeChannel_mask_true (xcols : List Column) (ycol : Column) :
    (makeChannel xcols ycol).mask =
      List.replicate (makeChannel xcols ycol).X.length true := by
  simp [makeChannel]

theorem LoadDataFrame_isSome (df : DataFrame) (xs ys : List String)
    (hx : ∀ n ∈ xs, (df.col? n).isSome) (hy : ∀ n ∈ ys, (df.col? n).isSome) :
    (LoadDataFrame df (some xs) (some ys)).isSome := by
  have hxs : (seqOpt (xs.map df.col?)).isSome := by
    refine seqOpt_isSome ?_
    intro o ho
    obtain ⟨n, hn, rfl⟩ := List.mem_map.mp ho
    exact hx n hn
  have hys : (seqOpt (ys.map df.col?)).isSome := by
    refine seqOpt_isSome ?_
    intro o ho
    obtain ⟨n, hn, rfl⟩ := List.mem_map.mp ho
    exact hy n hn
  obtain ⟨xcols, hxc⟩ := Option.isSome_iff_exists.mp hxs
  obtain ⟨ycols, hyc⟩ := Option.isSome_iff_exists.mp hys
  simp [LoadDataFrame, hxc, hyc]

theorem LoadCSV_success {f : TextFile} {names : Option (List String)}
    {ns : List String}
    (hns : f.header = some ns ∨ f.header = none ∧ names = some ns)
    (h2 : 2 ≤ ns.length) :
    ∃ d : Data, LoadCSV f names = some ⟨[d]⟩ ∧
      d.X.length = f.rows.length ∧ d.Y.length = f.rows.length := by
  have hrt : read_table f names = some (buildDF ns f.rows) := by
    rcases hns with h | ⟨h1, h2'⟩
    · simp [read_table, h]
    · simp [read_table, h1, h2']
  obtain ⟨n0, hn0⟩ : ∃ a, ns.get? 0 = some a := by
    cases hg : ns.get? 0 with
    | none =>
      have := List.get?_eq_none.mp hg
      omega
    | some a => exact ⟨a, rfl⟩
  obtain ⟨n1, hn1⟩ : ∃ a, ns.get? 1 = some a := by
    cases hg : ns.get? 1 with
    | none =>
      have := List.get?_eq_none.mp hg
      omega
    | some a => exact ⟨a, rfl⟩
  have hdf0 : (buildDF ns f.rows).get? 0 =
      some ⟨n0, f.rows.map (fun r => r.getD 0 (Cell.numC 0))⟩ := by
    rw [buildDF_get?, hn0]
    rfl
  have hdf1 : (buildDF ns f.rows).get? 1 =
      some ⟨n1, f.rows.map (fun r => r.getD 1 (Cell.numC 0))⟩ := by
    rw [buildDF_get?, hn1]
    rfl
  have hmem0 : (⟨n0, f.rows.map (fun r => r.getD 0 (Cell.numC 0))⟩ : Column) ∈
      buildDF ns f.rows := List.get?_mem hdf0
  have hcx : ((buildDF ns f.rows).col? n0).isSome := col?_isSome_of_mem hmem0
  obtain ⟨cx, hcx⟩ := Option.isSome_iff_exists.mp hcx
  have hmem1 : (⟨n1, f.rows.map (fun r => r.getD 1 (Cell.numC 0))⟩ : Column) ∈
      buildDF ns f.rows := List.get?_mem hdf1
  have hcy : ((buildDF ns f.rows).col? n1).isSome := col?_isSome_of_mem hmem1
  obtain ⟨cy, hcy⟩ := Option.isSome_iff_exists.mp hcy
  have hdf0' : (buildDF ns f.rows)[0]? =
      some ⟨n0, f.rows.map (fun r => r.getD 0 (Cell.numC 0))⟩ := by
    rw [← List.get?_eq_getElem?]
    exact hdf0
  have hdf1' : (buildDF ns f.rows)[1]? =
      some ⟨n1, f.rows.map (fun r => r.getD 1 (Cell.numC 0))⟩ := by
    rw [← List.get?_eq_getElem?]
    exact hdf1
  have hload : LoadDataFrame (buildDF ns f.rows) none none =
      some ⟨[makeChannel [cx] cy]⟩ := by
    simp [LoadDataFrame, hdf0', hdf1', hcx, hcy, seqOpt]
  refine ⟨makeChannel [cx] cy, ?_, ?_, ?_⟩
  · rw [LoadCSV, hrt]
    exact hload
  · rw [makeChannel_X_length]
    exact cells_length_of_mem_buildDF (mem_of_col?_eq_some hcy)
  · show cy.cells.length = f.rows.length
    exact cells_length_of_mem_buildDF (mem_of_col?_eq_some hcy)

/-- C1: loading a delimited text file with N data rows through LoadCSV, with
the column names supplied as a parameter when the file has no header row,
returns a data set whose channel exposes exactly N rows, on the X side and
on the Y side alike. -/
theorem C1_LoadCSV_row_count (f : TextFile) (names : Option (List String))
    (ns : List String)
    (hns : f.header = some ns ∨ f.header = none ∧ names = some ns)
    (h2 : 2 ≤ ns.length) :
    ∃ d : Data, LoadCSV f names = some ⟨[d]⟩ ∧
      (d.get_data false).1.length = f.rows.length ∧
      (d.get_data false).2.length = f.rows.length := by
  obtain ⟨d, hL, hX, hY⟩ := LoadCSV_success hns h2
  refine ⟨d, hL, ?_, ?_⟩
  · simpa [Data.get_data] using hX
  · simpa [Data.get_data] using hY

theorem C1_witness :
    (airlineFile.header = some ["time", "passengers"] ∨
      airlineFile.header = none ∧
        (some ["time", "passengers"] : Option (List String)) =
          some ["time", "passengers"]) ∧
    2 ≤ (["time", "passengers"] : List String).length ∧
    ∃ d : Data,
      LoadCSV airlineFile (some ["time", "passengers"]) = some ⟨[d]⟩ ∧
      (d.get_data false).1.length = airlineFile.rows.length ∧
      (d.get_data false).2.length = airlineFile.rows.length :=
  ⟨Or.inr ⟨rfl, rfl⟩, by decide,
    C1_LoadCSV_row_count airlineFile (some ["time", "passengers"])
      ["time", "passengers"] (Or.inr ⟨rfl, rfl⟩) (by decide)⟩

/-- C2: the code disagrees with the claim at the notebook's recorded call.
Evaluating the training-data accessor with the transformed flag on a channel
whose input column is the datetime Date column returns X values that are
still raw datetime-typed — exactly what the notebook's recorded output
(arrays of dtype datetime64 under transformed=True) shows — so the
transformed representation is not numeric-only. -/
theorem C2_transformed_keeps_datetime :
    (LoadDataFrame airQualityDF (some ["Date"]) (some ["CO(GT)"])).map
        (fun s => (s.get_train_data true).1) =
      some [[[Cell.dtC 0], [Cell.dtC 1]]] ∧
    (Cell.dtC 0).isNum = false := by
  exact ⟨by decide, rfl⟩

/-- C3 counterexample: dupSet holds two different channels that both carry
the name "a"; indexing by position 1 returns the channel at position 1,
whose name is "a", while indexing by that name returns the first channel, so
the two indexing forms disagree. -/
theorem C3_counterexample :
    (dupSet.getPos 1).map Data.name = some "a" ∧
    dupSet.getPos 1 ≠ dupSet.getName "a" := by
  exact ⟨by decide, by decide⟩

/-- C3 (amended): provided the channel names of the data set are pairwise
distinct — as in every data set shown in the notebook — indexing the data
set by a valid position i and indexing it by the name of the channel at
position i return the same channel. -/
theorem C3_pos_name_agree (s : DataSet) (i : ℕ) (d : Data)
    (hnd : s.get_names.Nodup) (h : s.getPos i = some d) :
    s.getName d.name = some d :=
  find?_name_eq_of_nodup (by simpa [DataSet.get_names] using hnd) h

theorem C3_pos_name_agree_witness :
    abDataSet.get_names.Nodup ∧ abDataSet.getPos 1 = some bChan ∧
    abDataSet.getName bChan.name = some bChan :=
  ⟨by decide, by decide,
    C3_pos_name_agree abDataSet 1 bChan (by decide) (by decide)⟩

/-- C4: when a table is loaded into channels, every selected input column's
type is inferred as numeric exactly when all of its cells are numeric values
(and as datetime otherwise), and the representation used for training
converts every cell to a number — a datetime cell becomes the number given
by its timestamp while a numeric cell is taken as-is. -/
theorem C4_type_inference (df : DataFrame) (xs ys : List String)
    (s : DataSet) (xcols : List Column)
    (hx : seqOpt (xs.map df.col?) = some xcols)
    (h : LoadDataFrame df (some xs) (some ys) = some s) :
    (∀ c ∈ xcols,
      (inferDType c.cells = DType.numeric ↔ c.cells.all Cell.isNum = true)) ∧
    (∀ q : ℚ, Cell.toNumber (Cell.numC q) = q) ∧
    (∀ t : ℤ, Cell.toNumber (Cell.dtC t) = (t : ℚ)) ∧
    ∀ d ∈ s.channels,
      d.xDtypes = xcols.map (fun c => inferDType c.cells) ∧
      d.X_t = d.X.map (List.map Cell.toNumber) ∧
      d.Y_t = d.Y.map Cell.toNumber := by
  obtain ⟨xcols', ycols, hxc', hyc, hch⟩ := LoadDataFrame_some_inv h
  rw [hx] at hxc'
  obtain rfl := Option.some.inj hxc'
  refine ⟨?_, fun q => rfl, fun t => rfl, ?_⟩
  · intro c hc
    by_cases hall : c.cells.all Cell.isNum
    · simp [inferDType, hall]
    · simp [inferDType, hall]
  · intro d hd
    rw [hch] at hd
    obtain ⟨yc, hyc', rfl⟩ := List.mem_map.mp hd
    exact ⟨rfl, rfl, rfl⟩

theorem C4_witness :
    (aqDCset.channels.get? 0).map Data.xDtypes = some [DType.datetime] := by
  have h := (C4_type_inference airQualityDF ["Date"] ["CO(GT)"] aqDCset
    [⟨"Date", [Cell.dtC 0, Cell.dtC 1]⟩] (by decide) (by decide)).2.2.2
  cases hc : aqDCset.channels.get? 0 with
  | none => exact absurd hc (by decide)
  | some d =>
    have hx := (h d (List.get?_mem hc)).1
    rw [Option.map_some', hx]
    decide

/-- C5: appending a single-channel Data instance to a data set with k
channels makes the output-dimension count k+1, puts the appended channel at
position k, and leaves the first k channels — hence each of their X, Y,
name and dimension values — unchanged. -/
theorem C5_append (s : DataSet) (d : Data) :
    (s.append d).get_output_dims = s.get_output_dims + 1 ∧
    (s.append d).channels.take s.channels.length = s.channels ∧
    (s.append d).getPos s.channels.length = some d := by
  refine ⟨?_, ?_, ?_⟩
  · simp [DataSet.append, DataSet.get_output_dims]
  · exact List.take_left s.channels [d]
  · exact List.get?_concat_length s.channels d

/-- C6: for a loaded data set, get_output_dims returns the number of
channels, one per designated output column, and get_input_dims returns for
each channel the number of input columns designated at load time (so a
channel loaded with two input columns has input dimension 2). -/
theorem C6_dims (df : DataFrame) (xs ys : List String) (s : DataSet)
    (h : LoadDataFrame df (some xs) (some ys) = some s) :
    s.get_output_dims = s.channels.length ∧
    s.get_output_dims = ys.length ∧
    s.get_input_dims = List.replicate ys.length xs.length :=
  ⟨rfl, (load_dims h).1, (load_dims h).2⟩

theorem C6_witness :
    LoadDataFrame airQualityDF (some ["Date", "Time"]) (some ["NMHC(GT)"]) =
      some aqNTset ∧
    aqNTset.get_output_dims = 1 ∧ aqNTset.get_input_dims = [2] := by
  have hL : LoadDataFrame airQualityDF (some ["Date", "Time"])
      (some ["NMHC(GT)"]) = some aqNTset := by decide
  have h := C6_dims airQualityDF ["Date", "Time"] ["NMHC(GT)"] aqNTset hL
  exact ⟨hL, by simpa using h.2.1, by simpa using h.2.2⟩

/-- C7: the retrieval accessors for all data, the training subset and the
test subset each take a transformed flag, and for every channel of a data
set the training subset and the test subset together partition the
channel's data points: their concatenation is a permutation of the whole
data, on the X side and on the Y side, for either value of the flag. -/
theorem C7_partition (s : DataSet) (t : Bool)
    (hwf : ∀ d ∈ s.channels, d.WF) :
    ∀ d ∈ s.channels,
      List.Perm ((d.get_train_data t).1 ++ (d.get_test_data t).1)
        ((d.get_data t).1) ∧
      List.Perm ((d.get_train_data t).2 ++ (d.get_test_data t).2)
        ((d.get_data t).2) := by
  intro d hd
  obtain ⟨hm, hY, hYt, hXt, hrow⟩ := hwf d hd
  have hZ : (if t then d.Y_t.map Cell.numC else d.Y).length = d.X.length := by
    cases t <;> simp [hY, hYt]
  constructor
  · simpa [Data.get_train_data, Data.get_test_data, Data.get_data] using
      maskSel_append_not_perm d.mask d.X hm
  · have hm2 : d.mask.length = (if t then d.Y_t.map Cell.numC else d.Y).length := by
      rw [hZ]
      exact hm
    simpa [Data.get_train_data, Data.get_test_data, Data.get_data] using
      maskSel_append_not_perm d.mask (if t then d.Y_t.map Cell.numC else d.Y) hm2

theorem C7_witness :
    List.Perm ((bChan.get_train_data true).1 ++ (bChan.get_test_data true).1)
      ((bChan.get_data true).1) ∧
    List.Perm ((bChan.get_train_data true).2 ++ (bChan.get_test_data true).2)
      ((bChan.get_data true).2) :=
  C7_partition abDataSet true (by decide) bChan (by decide)

/-- C9: a freshly loaded data set has no train/test split configured, so the
training accessor returns all of every channel's rows and the test accessor
returns no rows, for either value of the transformed flag. -/
theorem C9_fresh_split (df : DataFrame) (xc yc : Option (List String))
    (s : DataSet) (t : Bool) (h : LoadDataFrame df xc yc = some s) :
    s.get_train_data t = s.get_data t ∧
    (s.get_test_data t).1 = List.replicate s.get_output_dims [] ∧
    (s.get_test_data t).2 = List.replicate s.get_output_dims [] := by
  obtain ⟨xcols, ycols, hch⟩ := LoadDataFrame_channels h
  have hpt : ∀ d ∈ s.channels,
      d.get_train_data t = d.get_data t ∧ d.get_test_data t = ([], []) := by
    intro d hd
    rw [hch] at hd
    obtain ⟨yc', hyc', rfl⟩ := List.mem_map.mp hd
    refine train_eq_all_of_mask_true _ t (makeChannel_mask_true _ _) ?_ ?_
    · simp [makeChannel]
    · simp [makeChannel]
  refine ⟨?_, ?_, ?_⟩
  · have e1 : s.channels.map (fun d => (d.get_train_data t).1) =
        s.channels.map (fun d => (d.get_data t).1) :=
      List.map_congr_left (fun d hd => by rw [(hpt d hd).1])
    have e2 : s.channels.map (fun d => (d.get_train_data t).2) =
        s.channels.map (fun d => (d.get_data t).2) :=
      List.map_congr_left (fun d hd => by rw [(hpt d hd).1])
    rw [DataSet.get_train_data, DataSet.get_data, e1, e2]
  · have e : s.channels.map (fun d => (d.get_test_data t).1) =
        s.channels.map (fun _ => ([] : List (List Cell))) :=
      List.map_congr_left (fun d hd => by rw [(hpt d hd).2])
    show s.channels.map (fun d => (d.get_test_data t).1) = _
    rw [e, List.map_const']
    rfl
  · have e : s.channels.map (fun d => (d.get_test_data t).2) =
        s.channels.map (fun _ => ([] : List Cell)) :=
      List.map_congr_left (fun d hd => by rw [(hpt d hd).2])
    show s.channels.map (fun d => (d.get_test_data t).2) = _
    rw [e, List.map_const']
    rfl

theorem C9_witness :
    LoadDataFrame airQualityDF (some ["Date"]) (some ["CO(GT)"]) =
      some aqDCset ∧
    aqDCset.get_train_data false = aqDCset.get_data false ∧
    (aqDCset.get_test_data false).1 =
      List.replicate aqDCset.get_output_dims [] := by
  have hL : LoadDataFrame airQualityDF (some ["Date"]) (some ["CO(GT)"]) =
      some aqDCset := by decide
  have h := C9_fresh_split airQualityDF (some ["Date"]) (some ["CO(GT)"])
    aqDCset false hL
  exact ⟨hL, h.1, h.2.1⟩

/-- C10: on a data set with k channels whose channels are well-formed, the
training accessor returns a pair of lists of length k ordered by channel
position; the i-th X entry consists of rows with one entry per input
dimension of channel i, and the i-th Y entry has the same number of rows as
the i-th X entry. -/
theorem C10_train_shape (s : DataSet) (t : Bool)
    (hwf : ∀ d ∈ s.channels, d.WF) :
    (s.get_train_data t).1.length = s.get_output_dims ∧
    (s.get_train_data t).2.length = s.get_output_dims ∧
    ∀ i d, s.getPos i = some d →
      (s.get_train_data t).1.get? i = some (d.get_train_data t).1 ∧
      (s.get_train_data t).2.get? i = some (d.get_train_data t).2 ∧
      (∀ r ∈ (d.get_train_data t).1, r.length = d.xDtypes.length) ∧
      (d.get_train_data t).2.length = (d.get_train_data t).1.length := by
  refine ⟨by simp [DataSet.get_train_data, DataSet.get_output_dims],
    by simp [DataSet.get_train_data, DataSet.get_output_dims], ?_⟩
  intro i d hd
  have hd' : s.channels.get? i = some d := hd
  have hmem : d ∈ s.channels := List.get?_mem hd'
  obtain ⟨hm, hY, hYt, hXt, hrow⟩ := hwf d hmem
  refine ⟨?_, ?_, ?_, ?_⟩
  · show (s.channels.map (fun d => (d.get_train_data t).1)).get? i = _
    rw [List.get?_map, hd']
    rfl
  · show (s.channels.map (fun d => (d.get_train_data t).2)).get? i = _
    rw [List.get?_map, hd']
    rfl
  · intro r hr
    exact hrow r (mem_of_mem_maskSel (by simpa [Data.get_train_data] using hr))
  · show (maskSel d.mask _).length = (maskSel d.mask d.X).length
    apply maskSel_length_congr
    cases t <;> simp [hY, hYt]

theorem C10_witness :
    (abDataSet.get_train_data false).1.length = abDataSet.get_output_dims ∧
    (abDataSet.get_train_data false).1.get? 1 =
      some (bChan.get_train_data false).1 := by
  have h := C10_train_shape abDataSet false (by decide)
  exact ⟨h.1, (h.2.2 1 bChan (by decide)).1⟩

/-- C8: the invocation sequence recorded in the notebook completes without
failure.  For any headerless airline file and any air-quality table carrying
the recorded column names (the data files themselves ship outside the
sources, so only their recorded shape is fixed), the recorded calls —
LoadCSV with explicit names, the two LoadDataFrame calls with selected
columns, appending the second load, get_output_dims, get_input_dims,
get_names, indexing by position and by name, and get_train_data with and
without the transformed flag — all return a result, with the dimensions and
names the notebook records. -/
theorem C8_notebook_run (f : TextFile) (df : DataFrame)
    (hf : f.header = none)
    (hD : (df.col? "Date").isSome) (hT : (df.col? "Time").isSome)
    (hC : (df.col? "CO(GT)").isSome) (hP : (df.col? "PT08.S1(CO)").isSome)
    (hN : (df.col? "NMHC(GT)").isSome) :
    (LoadCSV f (some ["time", "passengers"])).isSome ∧
    ∃ s1 s2 : DataSet,
      LoadDataFrame df (some ["Date"]) (some ["CO(GT)", "PT08.S1(CO)"]) =
        some s1 ∧
      LoadDataFrame df (some ["Date", "Time"]) (some ["NMHC(GT)"]) = some s2 ∧
      (s1.appendDS s2).get_output_dims = 3 ∧
      (s1.appendDS s2).get_input_dims = [1, 1, 2] ∧
      (s1.appendDS s2).get_names = ["CO(GT)", "PT08.S1(CO)", "NMHC(GT)"] ∧
      ((s1.appendDS s2).getPos 0).isSome ∧
      ((s1.appendDS s2).getName "CO(GT)").isSome ∧
      ((s1.appendDS s2).get_train_data false).1.length = 3 ∧
      ((s1.appendDS s2).get_train_data true).1.length = 3 := by
  constructor
  · have hns : f.header = some ["time", "passengers"] ∨
        f.header = none ∧
          (some ["time", "passengers"] : Option (List String)) =
            some ["time", "passengers"] := Or.inr ⟨hf, rfl⟩
    obtain ⟨d, hL, _, _⟩ := LoadCSV_success hns (by decide)
    rw [hL]
    rfl
  · have hx1 : ∀ n ∈ (["Date"] : List String), (df.col? n).isSome := by
      intro n hn
      simp only [List.mem_singleton] at hn
      subst hn
      exact hD
    have hy1 : ∀ n ∈ (["CO(GT)", "PT08.S1(CO)"] : List String),
        (df.col? n).isSome := by
      intro n hn
      rcases List.mem_cons.mp hn with rfl | hn
      · exact hC
      · simp only [List.mem_singleton] at hn
        subst hn
        exact hP
    have hx2 : ∀ n ∈ (["Date", "Time"] : List String), (df.col? n).isSome := by
      intro n hn
      rcases List.mem_cons.mp hn with rfl | hn
      · exact hD
      · simp only [List.mem_singleton] at hn
        subst hn
        exact hT
    have hy2 : ∀ n ∈ (["NMHC(GT)"] : List String), (df.col? n).isSome := by
      intro n hn
      simp only [List.mem_singleton] at hn
      subst hn
      exact hN
    obtain ⟨s1, hs1⟩ := Option.isSome_iff_exists.mp
      (LoadDataFrame_isSome df _ _ hx1 hy1)
    obtain ⟨s2, hs2⟩ := Option.isSome_iff_exists.mp
      (LoadDataFrame_isSome df _ _ hx2 hy2)
    have h1 : s1.channels.length = 2 := by
      simpa [DataSet.get_output_dims] using (load_dims hs1).1
    have h2 : s2.channels.length = 1 := by
      simpa [DataSet.get_output_dims] using (load_dims hs2).1
    have hlen : (s1.appendDS s2).channels.length = 3 := by
      simp [DataSet.appendDS, h1, h2]
    have hnames : (s1.appendDS s2).get_names =
        ["CO(GT)", "PT08.S1(CO)", "NMHC(GT)"] := by
      have e : (s1.appendDS s2).get_names = s1.get_names ++ s2.get_names := by
        simp [DataSet.appendDS, DataSet.get_names]
      rw [e, get_names_of_load hs1, get_names_of_load hs2]
      rfl
    refine ⟨s1, s2, hs1, hs2, hlen, ?_, hnames, ?_, ?_, ?_, ?_⟩
    · have e : (s1.appendDS s2).get_input_dims =
          s1.get_input_dims ++ s2.get_input_dims := by
        simp [DataSet.appendDS, DataSet.get_input_dims]
      have i1 : s1.get_input_dims = [1, 1] := by
        simpa using (load_dims hs1).2
      have i2 : s2.get_input_dims = [2] := by
        simpa using (load_dims hs2).2
      rw [e, i1, i2]
      rfl
    · have hpos : 0 < (s1.appendDS s2).channels.length := by omega
      rw [DataSet.getPos, List.get?_eq_get hpos]
      rfl
    · rw [DataSet.getName, List.find?_isSome]
      have hmem : "CO(GT)" ∈ (s1.appendDS s2).channels.map Data.name := by
        show "CO(GT)" ∈ (s1.appendDS s2).get_names
        rw [hnames]
        simp
      obtain ⟨x, hx, hxname⟩ := List.mem_map.mp hmem
      exact ⟨x, hx, by simp [hxname]⟩
    · show ((s1.appendDS s2).channels.map
          (fun d => (d.get_train_data false).1)).length = 3
      rw [List.length_map, hlen]
    · show ((s1.appendDS s2).channels.map
          (fun d => (d.get_train_data true).1)).length = 3
      rw [List.length_map, hlen]

theorem C8_witness :
    airlineFile.header = none ∧
    (airQualityDF.col? "Date").isSome ∧ (airQualityDF.col? "Time").isSome ∧
    (airQualityDF.col? "CO(GT)").isSome ∧
    (airQualityDF.col? "PT08.S1(CO)").isSome ∧
    (airQualityDF.col? "NMHC(GT)").isSome ∧
    ((LoadCSV airlineFile (some ["time", "passengers"])).isSome ∧
      ∃ s1 s2 : DataSet,
        LoadDataFrame airQualityDF (some ["Date"])
          (some ["CO(GT)", "PT08.S1(CO)"]) = some s1 ∧
        LoadDataFrame airQualityDF (some ["Date", "Time"])
          (some ["NMHC(GT)"]) = some s2 ∧
        (s1.appendDS s2).get_output_dims = 3 ∧
        (s1.appendDS s2).get_input_dims = [1, 1, 2] ∧
        (s1.appendDS s2).get_names = ["CO(GT)", "PT08.S1(CO)", "NMHC(GT)"] ∧
        ((s1.appendDS s2).getPos 0).isSome ∧
        ((s1.appendDS s2).getName "CO(GT)").isSome ∧
        ((s1.appendDS s2).get_train_data false).1.length = 3 ∧
        ((s1.appendDS s2).get_train_data true).1.length = 3) :=
  ⟨rfl, by decide, by decide, by decide, by decide, by decide,
    C8_notebook_run airlineFile airQualityDF rfl (by decide) (by decide)
      (by decide) (by decide) (by decide)⟩
